import Mathlib

/-!
# Verification of the n2sql SQL safety-validation and guarded-execution pipeline

Shallow embedding of the safety-critical core of the `colquisiri_n2sql_service`
repository:

* `validate_sql`     — `src/src/handlers/validate_sql.py`
* `sanitize_sql`     — `src/src/n2sql.py`
* `exec_sql` and its LIMIT-injection rewriter, `_is_select_only`, `run_sql`
                     — `src/app.py`
* `v1_query`, `write_audit`, `_parse_sql_from_llm`, `_FORBIDDEN_RE`
                     — `src/src/app.py`
* `execute_sql`      — `src/src/handlers/execute_sql.py`

Python strings are modelled as Lean `String`s (all inputs of interest are
ASCII); Python's `re` searches used by the code are small fixed patterns and
are modelled by explicit scanners with the same leftmost-match semantics.
Exceptions are modelled with `Except`; the database, the LLM and the audit
sink are oracles supplied as explicit parameters.
-/

namespace N2SQL

/-! ## Python character and string primitives -/

/-- Python's `\s` / `str.strip()` whitespace class (ASCII). -/
def pySpace (c : Char) : Bool :=
  c == ' ' || c == '\t' || c == '\n' || c == '\r' || c == '\x0b' || c == '\x0c'

/-- Python's `\w` word-character class (ASCII): letters, digits, underscore. -/
def isWordChar (c : Char) : Bool :=
  c.isAlphanum || c == '_'

/-- `str.strip()` on the underlying character list. -/
def pyStripL (l : List Char) : List Char :=
  ((l.dropWhile pySpace).reverse.dropWhile pySpace).reverse

/-- `str.rstrip()` (trailing whitespace) on the underlying character list. -/
def pyRstripL (l : List Char) : List Char :=
  (l.reverse.dropWhile pySpace).reverse

/-- `str.rstrip(";")` (trailing semicolons) on the underlying character list. -/
def pyRstripSemiL (l : List Char) : List Char :=
  (l.reverse.dropWhile (· == ';')).reverse

/-- Python `str.strip()`. -/
def pyStrip (s : String) : String := ⟨pyStripL s.data⟩

/-- Python `str.rstrip()`. -/
def pyRstrip (s : String) : String := ⟨pyRstripL s.data⟩

/-- Python `str.rstrip(";")`. -/
def pyRstripSemi (s : String) : String := ⟨pyRstripSemiL s.data⟩

/-- Python `str.lower()` (ASCII inputs). -/
def pyLower (s : String) : String := ⟨s.data.map Char.toLower⟩

/-- Python `str.startswith(p)`: `p` is a prefix of `s`. -/
def pyStartsWith (s p : String) : Bool := p.data.isPrefixOf s.data

/-- Python `c in s` for a single character. -/
def pyContainsChar (s : String) (c : Char) : Bool := s.data.any (· == c)

/-- Python `str.split(sep)` for a non-empty separator, on the character
lists: leftmost, non-overlapping occurrences; the fuel (initially the
input length, an upper bound on the number of steps) only drives
termination. -/
def splitOnFuel (sep : List Char) : Nat → List Char → List Char →
    List (List Char)
  | _, acc, [] => [acc.reverse]
  | 0, acc, l => [acc.reverse ++ l]
  | fuel + 1, acc, c :: rest =>
    if sep.isPrefixOf (c :: rest) then
      acc.reverse :: splitOnFuel sep fuel [] (rest.drop (sep.length - 1))
    else splitOnFuel sep fuel (c :: acc) rest

/-- Python `str.split(sep)`. -/
def pySplit (sep s : String) : List String :=
  (splitOnFuel sep.data s.data.length [] s.data).map fun l => ⟨l⟩

/-! ## Regex scanners

The code uses a handful of fixed `re` patterns.  Each is modelled by a
scanner over the character list that tries every start position from the
left, exactly as `re.search` does. -/

/-- Case-insensitive literal match of `kw` (given in lower case) against the
front of `cs`, as done by `re` patterns compiled with `re.IGNORECASE`. -/
def ciMatches : List Char → List Char → Bool
  | [], _ => true
  | _ :: _, [] => false
  | k :: ks, c :: cs => k == c.toLower && ciMatches ks cs

/-- A word boundary `\b` holds before the current position when the previous
character (if any) is not a word character. -/
def boundaryOk : Option Char → Bool
  | none => true
  | some c => !isWordChar c

/-- `\b<kw>\b` holds at the front of `cs`: the keyword matches
case-insensitively and the character following it (if any) is not a word
character.  The boundary before the keyword is checked by the caller. -/
def wordAt (kw cs : List Char) : Bool :=
  ciMatches kw cs &&
    match cs.drop kw.length with
    | [] => true
    | c :: _ => !isWordChar c

/-- `re.search(r"\b<kw>\b", s, re.I)` as a scanner: try every position,
tracking the previous character for the left boundary. -/
def wordSearch (kw : List Char) : Option Char → List Char → Bool
  | _, [] => false
  | prev, c :: rest =>
    (boundaryOk prev && wordAt kw (c :: rest)) || wordSearch kw (some c) rest

/-- Whether `s` contains `kw` as a case-insensitive whole word. -/
def containsWordCI (kw : String) (s : String) : Bool :=
  wordSearch kw.data none s.data

/-! ### The `FROM`-table extraction

`re.search(r"\bfrom\s+([a-z0-9_\.]+)", s, re.I)` in `validate_sql.py`:
leftmost occurrence of the word `from` followed by whitespace and a
non-empty run of table characters; the captured group is that (greedy,
hence maximal) run. -/

/-- The character class `[a-z0-9_\.]` of the table-name capture group
(`validate_sql` scans the lower-cased statement). -/
def isTableChar (c : Char) : Bool :=
  (c ≥ 'a' && c ≤ 'z') || c.isDigit || c == '_' || c == '.'

/-- Attempt the pattern `from\s+([a-z0-9_\.]+)` at the front of `cs`. -/
def fromAt (cs : List Char) : Option (List Char) :=
  if ciMatches "from".data cs then
    let r := cs.drop 4
    let w := r.takeWhile pySpace
    if w.isEmpty then none
    else
      let t := (r.dropWhile pySpace).takeWhile isTableChar
      if t.isEmpty then none else some t
  else none

/-- Scanner for `\bfrom\s+([a-z0-9_\.]+)`. -/
def fromSearch : Option Char → List Char → Option (List Char)
  | _, [] => none
  | prev, c :: rest =>
    match (if boundaryOk prev then fromAt (c :: rest) else none) with
    | some t => some t
    | none => fromSearch (some c) rest

/-- The table captured from the `FROM` clause (`m.group(1)` in the code). -/
def fromTable (s : String) : Option String :=
  (fromSearch none s.data).map fun t => ⟨t⟩

/-! ### The projection-list extraction

`re.search(r"select\s+(.*?)\s+from", s, re.S | re.I)`: leftmost occurrence
of `select` from which the whole pattern matches; the greedy `\s+` first
takes the maximal whitespace run, the lazy `(.*?)` then takes the shortest
text after which `\s+from` matches (`from` starts with a non-whitespace
character, so the inner `\s+` is forced to end exactly at the whitespace
run preceding a literal `from`).  When no such occurrence exists after the
maximal run, the engine backtracks the leading `\s+`: with a run of length
at least 2 followed immediately by `from`, the group matches empty. -/

/-- Lazy part: shortest prefix of `cs` after which whitespace followed by
the literal `from` occurs; `acc` holds the (reversed) prefix so far. -/
def lazyCols (acc : List Char) : List Char → Option (List Char)
  | [] => none
  | c :: rest =>
    if pySpace c &&
        ciMatches "from".data ((c :: rest).dropWhile pySpace) then
      some acc.reverse
    else lazyCols (c :: acc) rest

/-- Attempt `select\s+(.*?)\s+from` at the front of `cs`. -/
def selectHeadAt (cs : List Char) : Option (List Char) :=
  if ciMatches "select".data cs then
    let r := cs.drop 6
    let w := r.takeWhile pySpace
    if w.isEmpty then none
    else
      match lazyCols [] (r.dropWhile pySpace) with
      | some g => some g
      | none =>
        if w.length ≥ 2 && ciMatches "from".data (r.dropWhile pySpace) then
          some []
        else none
  else none

/-- Scanner for `select\s+(.*?)\s+from` (no word boundaries in the
pattern, so every position is a candidate start). -/
def selectHeadSearch : List Char → Option (List Char)
  | [] => none
  | c :: rest =>
    match selectHeadAt (c :: rest) with
    | some g => some g
    | none => selectHeadSearch rest

/-- The raw projection list between `SELECT` and `FROM`
(`head.group(1)` / `cols_raw` in the code). -/
def headCols (s : String) : Option String :=
  (selectHeadSearch s.data).map fun g => ⟨g⟩

/-! ## The Validator — `validate_sql.py`

```python
DENY = re.compile(r"\b(insert|update|delete|drop|truncate|alter|grant|revoke|create)\b", re.I)

def validate_sql(sql: str):
    s = sql.strip().lower()
    if not s.startswith("select"):        raise ValueError("Solo SELECT permitido")
    if DENY.search(s):                    raise ValueError("Operación prohibida")
    if " limit " not in s:                raise ValueError("Falta LIMIT")
    m = re.search(r"\bfrom\s+([a-z0-9_\.]+)", s, re.I)
    if not m:                             raise ValueError("No se encontró FROM")
    table = m.group(1)
    if table not in DATASETS:             raise ValueError(f"Tabla/vista no permitida: ...")
    head = re.search(r"select\s+(.*?)\s+from", s, re.S | re.I)
    if not head:                          raise ValueError("No se pudo analizar las columnas")
    cols_raw = head.group(1)
    if "*" in cols_raw:                   raise ValueError("SELECT * no permitido")
    allowed = set(DATASETS[table]["columns"])
    cols = [c.strip().split(" as ")[0].split(".")[-1] for c in cols_raw.split(",")]
    for c in cols:
        if c and c not in allowed:        raise ValueError(f"Columna no permitida: ...")
```

Each `raise` site is mapped to the spec's `ReasonCode` taxonomy (§3):
`"Solo SELECT permitido"` = `NOT_SELECT`, `"Operación prohibida"` =
`FORBIDDEN_KEYWORD`, `"Falta LIMIT"` = `MISSING_LIMIT`,
`"Tabla/vista no permitida"` = `UNKNOWN_TABLE`, `"SELECT * no permitido"` =
`WILDCARD_SELECT`, `"Columna no permitida"` = `DISALLOWED_COLUMN`, and the
two parse failures = `UNPARSEABLE`. -/

/-- The spec's `ReasonCode` sum type (§3), with the offending identifier
carried where the code's error message names one.  `MULTI_STATEMENT`
appears in the spec's taxonomy; no code path produces it. -/
inductive Reason where
  | NOT_SELECT
  | FORBIDDEN_KEYWORD
  | MISSING_LIMIT
  | UNKNOWN_TABLE (table : String)
  | UNPARSEABLE (what : String)
  | WILDCARD_SELECT
  | DISALLOWED_COLUMN (col : String)
  | MULTI_STATEMENT
  deriving DecidableEq, Repr

/-- The `DENY` keyword list of `validate_sql.py` (nine keywords). -/
def DENY_KEYWORDS : List String :=
  ["insert", "update", "delete", "drop", "truncate", "alter", "grant",
   "revoke", "create"]

/-- `DENY.search(s)`. -/
def denySearch (s : String) : Bool :=
  DENY_KEYWORDS.any fun kw => containsWordCI kw s

/-- `s = sql.strip().lower()` — the normalised statement `validate_sql`
works on. -/
def vPre (sql : String) : String := pyLower (pyStrip sql)

/-- Python's substring containment `pat in s`: `pat` occurs at some
position of the list. -/
def substrSearch (pat : List Char) : List Char → Bool
  | [] => pat.isEmpty
  | c :: rest => pat.isPrefixOf (c :: rest) || substrSearch pat rest

/-- `" limit " not in s`, negated: the plain substring test of line 14. -/
def hasLimitSubstr (s : String) : Bool :=
  substrSearch " limit ".data s.data

/-- One entry of the projection list:
`c.strip().split(" as ")[0].split(".")[-1]`. -/
def projCol (c : String) : String :=
  (pySplit "." ((pySplit " as " (pyStrip c)).headD "")).getLastD ""

/-- `[c.strip().split(" as ")[0].split(".")[-1] for c in cols_raw.split(",")]`. -/
def projCols (colsRaw : String) : List String :=
  (pySplit "," colsRaw).map projCol

/-- The schema catalog: `DATASETS` maps a table identifier to its allowed
column list (`CAT["datasets"]`, each value's `"columns"` field). -/
abbrev Catalog := List (String × List String)

/-- `validate_sql` of `src/src/handlers/validate_sql.py`, parametrised by
the catalog `DATASETS` (loaded from `schema/catalog.yaml` at import time). -/
def validate_sql (datasets : Catalog) (sql : String) : Except Reason Unit :=
  let s := vPre sql
  if !(pyStartsWith s "select") then .error .NOT_SELECT
  else if denySearch s then .error .FORBIDDEN_KEYWORD
  else if !(hasLimitSubstr s) then .error .MISSING_LIMIT
  else
    match fromTable s with
    | none => .error (.UNPARSEABLE "FROM")
    | some table =>
      match datasets.lookup table with
      | none => .error (.UNKNOWN_TABLE table)
      | some allowed =>
        match headCols s with
        | none => .error (.UNPARSEABLE "columns")
        | some colsRaw =>
          if pyContainsChar colsRaw '*' then .error .WILDCARD_SELECT
          else
            match (projCols colsRaw).find?
                (fun c => c != "" && !(allowed.contains c)) with
            | some c => .error (.DISALLOWED_COLUMN c)
            | none => .ok ()

/-- Modelled from the spec: the catalog file `schema/catalog.yaml` read by
`validate_sql.py` is not part of the source tree.  Scenario A of the spec
fixes the allowed columns of `odoo_replica.stg_res_partner`
(`{id, display_name, vat, email, company_id}`), and the rule-based
generators in `src/src/handlers/sql_gen.py` project exactly those columns
for the partner table and the listed columns for the account-move table. -/
def CAT_spec : Catalog :=
  [("odoo_replica.stg_res_partner",
    ["id", "display_name", "vat", "email", "company_id"]),
   ("odoo_replica.stg_account_move",
    ["id", "name", "move_type", "state", "payment_state", "partner_id",
     "invoice_date", "invoice_date_due", "amount_total", "amount_residual",
     "currency_id", "company_id"])]

/-! ## The Rewriter and the `/api/exec` endpoint — `src/app.py`

```python
SAFE_SELECT_ONLY = re.compile(r"^\s*select\b", re.IGNORECASE | re.DOTALL)
BLOCK_DANGEROUS = re.compile(r"\b(drop|truncate|alter)\b", re.IGNORECASE)

def _is_select_only(sql):
    return bool(SAFE_SELECT_ONLY.match(sql)) and not BLOCK_DANGEROUS.search(sql)

async def exec_sql(sql, limit):
    if not DATABASE_URL: raise RuntimeError("DATABASE_URL no configurado.")
    if limit and limit > 0 and re.search(r"\blimit\s+\d+\b", sql, re.IGNORECASE) is None:
        sql = f"{sql.rstrip().rstrip(';')} LIMIT {limit}"
    ... rows = await con.fetch(sql) ...

@app.post("/api/exec")
async def run_sql(req):
    sql = req.sql.strip().rstrip(";")
    if not req.allow_write and not _is_select_only(sql):
        raise HTTPException(400, "Solo SELECT permitido. ...")
    rows, rc = await exec_sql(sql, req.limit)
    return {"rows": rows, "rowcount": rc}
```
-/

/-- `^\s*select\b` matched at the start of the string (`re.match`): skip the
maximal leading whitespace run, then the literal `select` followed by a word
boundary.  (Backtracking the `\s*` cannot help: a shorter run leaves a
whitespace character where `s` of `select` is required.) -/
def selectOnlyMatch (s : String) : Bool :=
  wordAt "select".data (s.data.dropWhile pySpace)

/-- `BLOCK_DANGEROUS.search(sql)`: `\b(drop|truncate|alter)\b`,
case-insensitive. -/
def blockDangerousSearch (s : String) : Bool :=
  ["drop", "truncate", "alter"].any fun kw => containsWordCI kw s

/-- `_is_select_only` of `src/app.py`. -/
def _is_select_only (sql : String) : Bool :=
  selectOnlyMatch sql && !blockDangerousSearch sql

/-- The pattern `limit\s+\d+\b` at the front of `cs` (the `\b` before
`limit` is checked by the caller): the keyword, a maximal non-empty
whitespace run, a maximal non-empty digit run, then a non-word character
or the end.  (Whitespace, digits and word characters being what they are,
backtracking the greedy runs cannot produce a match this misses.) -/
def limitNumAt (cs : List Char) : Bool :=
  ciMatches "limit".data cs &&
    (let r := cs.drop 5
     let w := r.takeWhile pySpace
     !w.isEmpty &&
       (let r2 := r.dropWhile pySpace
        let d := r2.takeWhile Char.isDigit
        !d.isEmpty &&
          match r2.dropWhile Char.isDigit with
          | [] => true
          | c :: _ => !isWordChar c))

/-- Scanner for `re.search(r"\blimit\s+\d+\b", sql, re.IGNORECASE)`. -/
def limitNumSearch : Option Char → List Char → Bool
  | _, [] => false
  | prev, c :: rest =>
    (boundaryOk prev && limitNumAt (c :: rest)) || limitNumSearch (some c) rest

/-- Whether `sql` already carries a numeric `LIMIT n` clause, in the
word-boundary sense of the code's regex. -/
def hasLimitNum (sql : String) : Bool :=
  limitNumSearch none sql.data

/-- The LIMIT-injection rewrite step of `exec_sql` (`src/app.py`
lines 219–220): when a positive limit is configured and no `LIMIT n`
clause is present, append ` LIMIT {limit}` to the statement stripped of
trailing whitespace and semicolons; otherwise leave the statement
untouched. -/
def exec_sql_rewrite (limit : Option Int) (sql : String) : String :=
  match limit with
  | none => sql
  | some n =>
    if 0 < n ∧ hasLimitNum sql = false then
      pyRstripSemi (pyRstrip sql) ++ " LIMIT " ++ toString n
    else sql

/-- A result row (psycopg/asyncpg records converted to dicts). -/
abbrev Row := List (String × String)

/-- An HTTP error response (`HTTPException(status_code, detail)`). -/
structure HTTPError where
  code : Nat
  detail : String
  deriving DecidableEq, Repr

/-- Environment of the `/api/exec` pipeline: the configured
`DATABASE_URL` and the database as an oracle from the executed SQL text
to rows (or a raised exception). -/
structure ExecEnv where
  databaseUrl : Option String
  fetch : String → Except String (List Row)

/-- `exec_sql` of `src/app.py`: check the configuration, rewrite, fetch.
The second component records the SQL texts actually sent to the
database. -/
def exec_sql (env : ExecEnv) (sql : String) (limit : Option Int) :
    Except String (List Row × Nat) × List String :=
  match env.databaseUrl with
  | none => (.error "DATABASE_URL no configurado.", [])
  | some _ =>
    let sql := exec_sql_rewrite limit sql
    match env.fetch sql with
    | .error e => (.error e, [sql])
    | .ok rows => (.ok (rows, rows.length), [sql])

/-- A request to `/api/exec` (`ExecRequest`). -/
structure ExecRequest where
  sql : String
  limit : Option Int
  allow_write : Bool
  deriving Repr

/-- `run_sql`, the `/api/exec` handler of `src/app.py`.  `HTTPException`s
are re-raised; any other exception becomes a 500.  The second component
records the SQL texts sent to the database. -/
def run_sql (env : ExecEnv) (req : ExecRequest) :
    Except HTTPError (List Row × Nat) × List String :=
  let sql := pyRstripSemi (pyStrip req.sql)
  if !req.allow_write && !(_is_select_only sql) then
    (.error ⟨400,
      "Solo SELECT permitido. (Set allow_write=true para DML bajo tu riesgo)."⟩,
     [])
  else
    match exec_sql env sql req.limit with
    | (.error e, sent) => (.error ⟨500, e⟩, sent)
    | (.ok r, sent) => (.ok r, sent)

/-! ## `sanitize_sql` — `src/src/n2sql.py`

```python
_BLOCKED = re.compile(r"\b(INSERT|UPDATE|DELETE|TRUNCATE|ALTER|DROP|CREATE|GRANT|REVOKE|COPY|CALL|DO|SET|SHOW)\b", re.IGNORECASE)

def sanitize_sql(sql):
    s = sql.strip().rstrip(";")
    if not re.match(r"(?is)^\s*select\b", s): raise ValueError("Solo se permiten consultas SELECT")
    if _BLOCKED.search(s): raise ValueError("Se detectó una instrucción no permitida")
    return s + ";"
```
-/

/-- The `_BLOCKED` keyword list of `n2sql.py` (fourteen keywords). -/
def BLOCKED_KEYWORDS : List String :=
  ["insert", "update", "delete", "truncate", "alter", "drop", "create",
   "grant", "revoke", "copy", "call", "do", "set", "show"]

/-- `_BLOCKED.search(s)`. -/
def blockedSearch (s : String) : Bool :=
  BLOCKED_KEYWORDS.any fun kw => containsWordCI kw s

/-- `sanitize_sql` of `src/src/n2sql.py`. -/
def sanitize_sql (sql : String) : Except String String :=
  let s := pyRstripSemi (pyStrip sql)
  if !(selectOnlyMatch s) then .error "Solo se permiten consultas SELECT"
  else if blockedSearch s then .error "Se detectó una instrucción no permitida"
  else .ok (s ++ ";")

/-! ## The `/v1/query` pipeline — `src/src/app.py`

The request handler builds a schema hint, asks the LLM for SQL, parses it
out of the reply, applies the SELECT-only and forbidden-keyword checks,
executes under a pinned `search_path`, and — in a `finally` block —
writes one audit record, through `write_audit`, which swallows every
exception.  The database, the LLM and the audit insert are oracles. -/

/-- The `_FORBIDDEN_RE` keyword list of `src/src/app.py` (thirteen
keywords). -/
def FORBIDDEN_KEYWORDS : List String :=
  ["insert", "update", "delete", "drop", "alter", "grant", "revoke",
   "truncate", "create", "comment", "merge", "call", "execute"]

/-- `_FORBIDDEN_RE.search(s)`. -/
def forbiddenSearch (s : String) : Bool :=
  FORBIDDEN_KEYWORDS.any fun kw => containsWordCI kw s

/-- Leftmost occurrence of the ci literal `pat` in `cs`; returns the
remainder starting at the occurrence. -/
def ciFind (pat : List Char) : List Char → Option (List Char)
  | [] => if pat.isEmpty then some [] else none
  | c :: rest =>
    if ciMatches pat (c :: rest) then some (c :: rest)
    else ciFind pat rest

/-- The lazy group of ```` ```sql\s*(.*?)``` ````: shortest prefix of `cs`
before a literal ```` ``` ````. -/
def upToTicks (acc : List Char) : List Char → Option (List Char)
  | [] => none
  | c :: rest =>
    if "```".data.isPrefixOf (c :: rest) then some acc.reverse
    else upToTicks (c :: acc) rest

/-- ``re.search(r"```sql\s*(.*?)```", text, re.IGNORECASE | re.DOTALL)``:
from each occurrence of ```` ```sql ````, skip the maximal whitespace run
and take the shortest text closed by ```` ``` ```` (the closing literal
starts with a non-whitespace character, so backtracking the greedy `\s*`
cannot produce an earlier match). -/
def sqlBlockSearch : List Char → Option (List Char)
  | [] => none
  | c :: rest =>
    match
      (if ciMatches "```sql".data (c :: rest) then
        upToTicks [] (((c :: rest).drop 6).dropWhile pySpace)
      else none) with
    | some g => some g
    | none => sqlBlockSearch rest

/-- `re.search(r"(?is)(select\b.*)", text)`: from the leftmost occurrence
of the word-bounded `select`, the group is the entire remaining text. -/
def selectTailSearch : List Char → Option (List Char)
  | [] => none
  | c :: rest =>
    if wordAt "select".data (c :: rest) then some (c :: rest)
    else selectTailSearch rest

/-- `_parse_sql_from_llm` of `src/src/app.py`. -/
def parse_sql_from_llm (text : String) : String :=
  match sqlBlockSearch text.data with
  | some inner => pyRstripSemi (pyStrip ⟨inner⟩)
  | none =>
    match selectTailSearch text.data with
    | some tail => pyRstripSemi (pyStrip ⟨tail⟩)
    | none => pyRstripSemi (pyStrip text)

/-- `ODBC_DEFAULT_SCHEMA` of `src/src/app.py`. -/
def ODBC_DEFAULT_SCHEMA : String := "odoo_replica"

/-- `_prompt_messages` of `src/src/app.py`: the (role, content) pairs sent
to the chat-completions API. -/
def prompt_messages (schema_hint intent : String) : List (String × String) :=
  [("system",
    "Eres un generador de SQL para PostgreSQL. Devuelves SOLO una consulta SQL válida y segura.\n"
      ++ "Usa el esquema '" ++ ODBC_DEFAULT_SCHEMA
      ++ "'. Si no se especifica esquema, asume search_path='"
      ++ ODBC_DEFAULT_SCHEMA ++ ", public'.\n"
      ++ "Responde usando un bloque de código con la consulta SQL. No expliques, no agregues texto extra.\n"
      ++ "Prohibido: DML/DDL (INSERT/UPDATE/DELETE/DROP/ALTER/CREATE/etc), múltiples sentencias o CTEs peligrosos.\n"
      ++ "Prefiere nombres exactos de columnas y tablas según el hint de esquema.\n"
      ++ "Siempre incluye LIMIT razonable cuando aplique.\n\n"
      ++ "Esquema disponible:\n" ++ schema_hint ++ "\n"),
   ("user",
    "Intento en lenguaje natural: " ++ intent
      ++ "\nGenera UNA SOLA consulta SELECT en SQL estándar para Postgres.")]

/-- The audit record fields written by `v1_query`'s `finally` block.
Timing (`duration_ms`), client IP, model name and token usage are
environment-dependent observables outside the shallow embedding and are
omitted; the policy-relevant fields are kept. -/
structure AuditRec where
  dataset : String
  intent : String
  sql_text : String
  row_count : Nat
  status : String
  error : Option String
  deriving DecidableEq, Repr

/-- `write_audit` of `src/src/app.py`: the whole body — connection, table
discovery and insert, here abstracted as the oracle `ins` — runs inside
`try: ... except Exception: pass`, so the function returns normally no
matter what the sink does. -/
def write_audit (ins : AuditRec → Except String Unit) (arec : AuditRec) :
    Except String Unit :=
  match ins arec with
  | .ok _ => .ok ()
  | .error _ => .ok ()

/-- A `/v1/query` request (`QueryIn`). -/
structure QueryIn where
  dataset : String
  intent : String
  deriving Repr

/-- A `/v1/query` success response (`QueryOut`). -/
structure QueryOut where
  ok : Bool
  dataset : String
  schema : String
  sql : String
  rows : List Row
  rowcount : Nat
  deriving DecidableEq, Repr

/-- Outcome of the `try` body of `v1_query`: a value, an
`HTTPException(400, ...)` raised by the validations, or any other
exception. -/
inductive V1Out where
  | success (out : QueryOut)
  | badRequest (detail : String)
  | serverError (msg : String)
  deriving DecidableEq, Repr

/-- The `try` body of `v1_query`, over the external oracles: database
connection, `_build_schema_hint`, the chat-completions call, the
`SET LOCAL search_path` statement and the query execution.  Returns the
body's outcome together with the values of the `sql_text` and `rows`
locals, which the `finally` block reads. -/
def v1_attempt (connectR : Except String Unit) (hintR : Except String String)
    (llmR : List (String × String) → Except String String)
    (setPathR : Except String Unit) (runR : String → Except String (List Row))
    (req : QueryIn) : V1Out × String × List Row :=
  match connectR with
  | .error e => (.serverError e, "", [])
  | .ok _ =>
    match hintR with
    | .error e => (.serverError e, "", [])
    | .ok hint =>
      match llmR (prompt_messages hint req.intent) with
      | .error e => (.serverError e, "", [])
      | .ok content =>
        let sql_text := parse_sql_from_llm content
        if !(selectOnlyMatch sql_text) then
          (.badRequest "Solo se permiten consultas SELECT", sql_text, [])
        else if forbiddenSearch sql_text then
          (.badRequest "Se detectó palabra reservada no permitida", sql_text, [])
        else
          match setPathR with
          | .error e => (.serverError e, sql_text, [])
          | .ok _ =>
            match runR sql_text with
            | .error e => (.serverError e, sql_text, [])
            | .ok rows =>
              (.success ⟨true, req.dataset, ODBC_DEFAULT_SCHEMA, sql_text,
                rows, rows.length⟩, sql_text, rows)

/-- The `status` local as set by the `except` clauses. -/
def v1_status : V1Out → String
  | .success _ => "ok"
  | .badRequest _ => "bad_request"
  | .serverError _ => "error"

/-- The `error` local as set by the `except` clauses. -/
def v1_error : V1Out → Option String
  | .success _ => none
  | .badRequest d => some d
  | .serverError m => some m

/-- The HTTP response: `HTTPException`s are re-raised, other exceptions
become `HTTPException(500, str(e))`. -/
def v1_response : V1Out → Except HTTPError QueryOut
  | .success out => .ok out
  | .badRequest d => .error ⟨400, d⟩
  | .serverError m => .error ⟨500, m⟩

/-- Environment of the `/v1/query` pipeline (all external effects). -/
structure V1Env where
  connectR : Except String Unit
  hintR : Except String String
  llmR : List (String × String) → Except String String
  setPathR : Except String Unit
  runR : String → Except String (List Row)
  auditInsR : AuditRec → Except String Unit

/-- `v1_query` of `src/src/app.py`: run the body, then — in the `finally`
block — call `write_audit` once with the audit record assembled from the
locals.  The second component is the log of audit invocations: the record
passed to `write_audit` paired with `write_audit`'s outcome. -/
def v1_query (env : V1Env) (req : QueryIn) :
    Except HTTPError QueryOut × List (AuditRec × Except String Unit) :=
  let t := v1_attempt env.connectR env.hintR env.llmR env.setPathR env.runR req
  let arec : AuditRec :=
    ⟨req.dataset, req.intent, t.2.1, t.2.2.length, v1_status t.1, v1_error t.1⟩
  (v1_response t.1, [(arec, write_audit env.auditInsR arec)])

/-! ## The Guarded Executor — `src/src/handlers/execute_sql.py`

```python
def execute_sql(sql, args=(), timeout_ms=5000):
    t0 = perf_counter()
    with psycopg.connect(DSN) as conn, conn.cursor() as cur:
        cur.execute(f"SET statement_timeout TO {timeout_ms}")
        cur.execute(sql, args)
        rows = cur.fetchall()
        cols = [d.name for d in cur.description]
    return cols, rows, {"elapsed_ms": ...}
```

The `with` block closes the connection on every exit path once the
connection is acquired; `args` are passed as bound parameters, never
interpolated into the SQL text.  Elapsed-time bookkeeping is outside the
shallow embedding. -/

/-- Observable database-session events of one `execute_sql` call. -/
inductive DbEvent where
  | connect
  | execQ (q : String)
  | close
  deriving DecidableEq, Repr

/-- Environment of the Guarded Executor: connection acquisition, statement
execution and fetch, each able to raise. -/
structure DbEnv where
  connect : Except String Unit
  exec : String → Except String Unit
  fetch : Except String (List Row × List String)

/-- The `SET statement_timeout TO {timeout_ms}` statement text. -/
def timeoutStmt (timeout_ms : Int) : String :=
  "SET statement_timeout TO " ++ toString timeout_ms

/-- `execute_sql` of `src/src/handlers/execute_sql.py`, returning the
result (or the raised exception) together with the trace of session
events.  A failed `connect` raises before the `with` body is entered, so
no events are produced; after a successful `connect`, every path appends
`close`. -/
def execute_sql (env : DbEnv) (sql : String) (timeout_ms : Int) :
    Except String (List String × List Row) × List DbEvent :=
  match env.connect with
  | .error e => (.error e, [])
  | .ok _ =>
    match env.exec (timeoutStmt timeout_ms) with
    | .error e => (.error e, [.connect, .execQ (timeoutStmt timeout_ms), .close])
    | .ok _ =>
      match env.exec sql with
      | .error e =>
        (.error e, [.connect, .execQ (timeoutStmt timeout_ms), .execQ sql, .close])
      | .ok _ =>
        match env.fetch with
        | .error e =>
          (.error e,
           [.connect, .execQ (timeoutStmt timeout_ms), .execQ sql, .close])
        | .ok (rows, cols) =>
          (.ok (cols, rows),
           [.connect, .execQ (timeoutStmt timeout_ms), .execQ sql, .close])

/-- The queries executed in a trace, in order. -/
def queriesOf (tr : List DbEvent) : List String :=
  tr.filterMap fun e =>
    match e with
    | .execQ q => some q
    | _ => none

/-! # Theorems -/

deriving instance DecidableEq for Except

/-! ## C1 — keyword blacklist -/

/-- C1 (counterexample).  The claim says the Validator rejects, with
`FORBIDDEN_KEYWORD`, every statement containing any of the seventeen
case-insensitive whole-word tokens INSERT … SET, SHOW.  `SHOW` is one of
the seventeen, yet a SELECT containing `show` as a whole word is accepted
outright: the `DENY` list of `validate_sql.py` has only nine keywords. -/
theorem c1_forbidden_keyword_counterexample :
    validate_sql CAT_spec
      "select id as show from odoo_replica.stg_res_partner limit 5"
      = .ok () := by
  decide

/-- C1 (amended).  For every candidate that (stripped, lower-cased) starts
with `select` and contains one of the nine `DENY` keywords
(INSERT, UPDATE, DELETE, DROP, TRUNCATE, ALTER, GRANT, REVOKE, CREATE) as
a case-insensitive whole word, `validate_sql` rejects with
`FORBIDDEN_KEYWORD`, for any catalog. -/
theorem c1_deny_keywords_rejected (ds : Catalog) (sql : String)
    (h1 : pyStartsWith (vPre sql) "select" = true)
    (h2 : ∃ kw ∈ DENY_KEYWORDS, containsWordCI kw (vPre sql) = true) :
    validate_sql ds sql = .error .FORBIDDEN_KEYWORD := by
  have hd : denySearch (vPre sql) = true := by
    rcases h2 with ⟨kw, hmem, hkw⟩
    exact List.any_eq_true.mpr ⟨kw, hmem, hkw⟩
  unfold validate_sql
  simp [h1, hd]

/-- C1 (witness): `c1_deny_keywords_rejected` at a concrete input. -/
theorem c1_deny_keywords_rejected_witness :
    validate_sql CAT_spec
      "select drop from odoo_replica.stg_res_partner limit 5"
      = .error .FORBIDDEN_KEYWORD :=
  c1_deny_keywords_rejected CAT_spec _ (by decide)
    ⟨"drop", by decide, by decide⟩

/-! ## C2 — wildcard projection and `COUNT(*)` -/

/-- C2 (counterexample).  The claim says a `COUNT(*)` projection is
permitted (exempt from the wildcard rule).  The code rejects any `*`
inside the projection text, so `COUNT(*)` is rejected with
`WILDCARD_SELECT`. -/
theorem c2_count_star_counterexample :
    validate_sql CAT_spec
      "select count(*) from odoo_replica.stg_res_partner limit 1"
      = .error .WILDCARD_SELECT := by
  decide

/-- C2 (amended).  For every candidate that reaches the projection check
(passes the SELECT, keyword, LIMIT and table rules) whose projection text
contains `*` — bare or inside `COUNT(*)` — `validate_sql` rejects with
`WILDCARD_SELECT`; there is no `COUNT(*)` exemption. -/
theorem c2_wildcard_rejected (ds : Catalog) (sql : String)
    (h1 : pyStartsWith (vPre sql) "select" = true)
    (h2 : denySearch (vPre sql) = false)
    (h3 : hasLimitSubstr (vPre sql) = true)
    (h4 : ∃ t, fromTable (vPre sql) = some t ∧ (ds.lookup t).isSome = true)
    (h5 : ∃ raw, headCols (vPre sql) = some raw ∧ pyContainsChar raw '*' = true) :
    validate_sql ds sql = .error .WILDCARD_SELECT := by
  rcases h4 with ⟨t, ht, hl⟩
  rcases Option.isSome_iff_exists.mp hl with ⟨cols, hcols⟩
  rcases h5 with ⟨raw, hraw, hstar⟩
  unfold validate_sql
  simp [h1, h2, h3, ht, hcols, hraw, hstar]

/-- C2 (witness): `c2_wildcard_rejected` at the spec's Scenario B input. -/
theorem c2_wildcard_rejected_witness :
    validate_sql CAT_spec "select * from odoo_replica.stg_res_partner limit 1"
      = .error .WILDCARD_SELECT :=
  c2_wildcard_rejected CAT_spec _ (by decide) (by decide) (by decide)
    ⟨"odoo_replica.stg_res_partner", by decide, by decide⟩
    ⟨"*", by decide, by decide⟩

/-! ## C3 — metadata probing -/

/-- C3 (counterexample).  Scenario D's input is not rejected with
`FORBIDDEN_KEYWORD`: the Validator has no metadata-probe rule. -/
theorem c3_metadata_probe_counterexample :
    validate_sql CAT_spec "SELECT name FROM information_schema.tables"
      ≠ .error .FORBIDDEN_KEYWORD := by
  decide

/-- C3 (amended).  `"SELECT name FROM information_schema.tables"` is
rejected, but with `MISSING_LIMIT` (it lacks the ` limit ` substring);
with a LIMIT added, the `information_schema` reference is rejected only by
the table allow-list, as `UNKNOWN_TABLE` — never as `FORBIDDEN_KEYWORD`. -/
theorem c3_metadata_probe_actual :
    validate_sql CAT_spec "SELECT name FROM information_schema.tables"
        = .error .MISSING_LIMIT
    ∧ validate_sql CAT_spec "select name from information_schema.tables limit 5"
        = .error (.UNKNOWN_TABLE "information_schema.tables") := by
  exact ⟨by decide, by decide⟩

/-! ## C4 — multi-statement texts -/

/-- C4 (counterexample).  Scenario C's input is rejected with neither
`FORBIDDEN_KEYWORD` nor `MULTI_STATEMENT` (it is rejected as
`NOT_SELECT`), and no `MULTI_STATEMENT` rule exists. -/
theorem c4_multi_statement_counterexample :
    validate_sql CAT_spec "DROP TABLE odoo_replica.stg_res_partner; SELECT 1"
        ≠ .error .FORBIDDEN_KEYWORD
    ∧ validate_sql CAT_spec "DROP TABLE odoo_replica.stg_res_partner; SELECT 1"
        ≠ .error .MULTI_STATEMENT := by
  exact ⟨by decide, by decide⟩

/-- C4 (amended).  Scenario C's input is rejected with `NOT_SELECT` (the
first rule that fires: the text does not begin with SELECT).  The
Validator performs no multi-statement check at all: a semicolon-separated
pair of SELECT statements passes validation. -/
theorem c4_multi_statement_actual :
    validate_sql CAT_spec "DROP TABLE odoo_replica.stg_res_partner; SELECT 1"
        = .error .NOT_SELECT
    ∧ validate_sql CAT_spec
        "select id from odoo_replica.stg_res_partner limit 1; select vat from odoo_replica.stg_res_partner limit 1"
        = .ok () := by
  exact ⟨by decide, by decide⟩

/-! ## C5 — missing LIMIT -/

/-- C5 (counterexample).  The claim says a missing LIMIT is not a
validation error.  The Validator rejects an otherwise-valid SELECT
without a LIMIT clause (`"Falta LIMIT"` = `MISSING_LIMIT`). -/
theorem c5_missing_limit_counterexample :
    validate_sql CAT_spec "select id from odoo_replica.stg_res_partner"
      = .error .MISSING_LIMIT := by
  decide

/-- C5 (amended).  In the `validate_sql` pipeline a missing ` limit `
substring is a validation error (`MISSING_LIMIT`); the default bound is
injected only in the separate `/api/exec` pipeline, whose `exec_sql`
appends ` LIMIT <default>` when no numeric LIMIT clause is present. -/
theorem c5_missing_limit_rejected_rewriter_injects (ds : Catalog)
    (sql sql2 : String) (n : Int)
    (h1 : pyStartsWith (vPre sql) "select" = true)
    (h2 : denySearch (vPre sql) = false)
    (h3 : hasLimitSubstr (vPre sql) = false)
    (h4 : 0 < n) (h5 : hasLimitNum sql2 = false) :
    validate_sql ds sql = .error .MISSING_LIMIT
    ∧ exec_sql_rewrite (some n) sql2
        = pyRstripSemi (pyRstrip sql2) ++ " LIMIT " ++ toString n := by
  constructor
  · unfold validate_sql
    simp [h1, h2, h3]
  · unfold exec_sql_rewrite
    simp [h4, h5]

/-- C5 (witness): `c5_missing_limit_rejected_rewriter_injects` at concrete
inputs. -/
theorem c5_missing_limit_witness :
    validate_sql CAT_spec "select vat from odoo_replica.stg_res_partner"
        = .error .MISSING_LIMIT
    ∧ exec_sql_rewrite (some 100) "select 1" = "select 1 LIMIT 100" := by
  have h := c5_missing_limit_rejected_rewriter_injects CAT_spec
    "select vat from odoo_replica.stg_res_partner" "select 1" 100
    (by decide) (by decide) (by decide) (by decide) (by decide)
  refine ⟨h.1, ?_⟩
  rw [h.2]
  decide

/-! ## C6 — idempotence of the Rewriter

The proofs below reason about the `\blimit\s+\d+\b` scan on appended
texts: a match survives appending a non-word tail (trailing whitespace and
semicolons stripped by the rewrite are non-word), and the appended
` LIMIT <n>` suffix always produces a match (the rendered `n` is a
non-empty run of digit characters). -/

section RewriterLemmas

variable {α : Type _} {p : α → Bool}

theorem mem_takeWhile_pred : ∀ {l : List α} {a : α}, a ∈ l.takeWhile p → p a = true
  | x :: xs, a, h => by
    by_cases hx : p x
    · rw [List.takeWhile_cons_of_pos hx] at h
      rcases List.mem_cons.mp h with rfl | h'
      · exact hx
      · exact mem_takeWhile_pred h'
    · rw [List.takeWhile_cons_of_neg hx] at h
      cases h

theorem takeWhile_append_pos : ∀ {l : List α} (t : List α),
    l.dropWhile p ≠ [] → (l ++ t).takeWhile p = l.takeWhile p
  | [], t, h => absurd rfl h
  | x :: xs, t, h => by
    by_cases hx : p x
    · rw [List.dropWhile_cons_of_pos hx] at h
      simp only [List.cons_append, List.takeWhile_cons_of_pos hx,
        takeWhile_append_pos t h]
    · simp only [List.cons_append, List.takeWhile_cons_of_neg hx]

theorem dropWhile_append_pos : ∀ {l : List α} (t : List α),
    l.dropWhile p ≠ [] → (l ++ t).dropWhile p = l.dropWhile p ++ t
  | [], t, h => absurd rfl h
  | x :: xs, t, h => by
    by_cases hx : p x
    · rw [List.dropWhile_cons_of_pos hx] at h
      simp only [List.cons_append, List.dropWhile_cons_of_pos hx,
        dropWhile_append_pos t h]
    · simp only [List.cons_append, List.dropWhile_cons_of_neg hx,
        List.dropWhile_cons_of_neg hx]

theorem takeWhile_append_all : ∀ {l : List α} (t : List α),
    (∀ a ∈ l, p a = true) → (l ++ t).takeWhile p = l ++ t.takeWhile p
  | [], t, _ => rfl
  | x :: xs, t, h => by
    have hx : p x = true := h x (List.mem_cons_self x xs)
    simp only [List.cons_append, List.takeWhile_cons_of_pos hx]
    rw [takeWhile_append_all t fun a ha => h a (List.mem_cons_of_mem x ha)]

theorem dropWhile_append_all : ∀ {l : List α} (t : List α),
    (∀ a ∈ l, p a = true) → (l ++ t).dropWhile p = t.dropWhile p
  | [], t, _ => rfl
  | x :: xs, t, h => by
    have hx : p x = true := h x (List.mem_cons_self x xs)
    simp only [List.cons_append, List.dropWhile_cons_of_pos hx]
    exact dropWhile_append_all t fun a ha => h a (List.mem_cons_of_mem x ha)

theorem takeWhile_head_false : ∀ {l : List α},
    (∀ a ∈ l, p a = false) → l.takeWhile p = []
  | [], _ => rfl
  | x :: xs, h =>
    List.takeWhile_cons_of_neg (by simp [h x (List.mem_cons_self x xs)])

theorem dropWhile_head_false : ∀ {l : List α},
    (∀ a ∈ l, p a = false) → l.dropWhile p = l
  | [], _ => rfl
  | x :: xs, h =>
    List.dropWhile_cons_of_neg (by simp [h x (List.mem_cons_self x xs)])

/-- Decomposition of a list into its right-stripped part and the stripped
tail, whose elements all satisfy the stripping predicate. -/
theorem rstrip_decomp (l : List α) (p : α → Bool) :
    l = (l.reverse.dropWhile p).reverse ++ (l.reverse.takeWhile p).reverse
      ∧ ∀ a ∈ (l.reverse.takeWhile p).reverse, p a = true := by
  constructor
  · calc l = l.reverse.reverse := (List.reverse_reverse l).symm
    _ = (l.reverse.takeWhile p ++ l.reverse.dropWhile p).reverse := by
        rw [List.takeWhile_append_dropWhile]
    _ = (l.reverse.dropWhile p).reverse ++ (l.reverse.takeWhile p).reverse :=
        List.reverse_append _ _
  · intro a ha
    exact mem_takeWhile_pred (List.mem_reverse.mp ha)

end RewriterLemmas

theorem pySpace_elim {c : Char} (h : pySpace c = true) :
    c = ' ' ∨ c = '\t' ∨ c = '\n' ∨ c = '\r' ∨ c = '\x0b' ∨ c = '\x0c' := by
  simp only [pySpace, Bool.or_eq_true, beq_iff_eq] at h
  tauto

theorem pySpace_not_word {c : Char} (h : pySpace c = true) :
    isWordChar c = false := by
  rcases pySpace_elim h with rfl | rfl | rfl | rfl | rfl | rfl <;> decide

theorem semi_not_word {c : Char} (h : (c == ';') = true) :
    isWordChar c = false := by
  rw [beq_iff_eq] at h
  subst h
  decide

theorem digit_word {c : Char} (h : c.isDigit = true) : isWordChar c = true := by
  simp [isWordChar, Char.isAlphanum, h]

theorem notword_not_digit {c : Char} (h : isWordChar c = false) :
    c.isDigit = false := by
  cases hd : c.isDigit
  · rfl
  · rw [digit_word hd] at h
    cases h

theorem digit_not_space {c : Char} (h : c.isDigit = true) :
    pySpace c = false := by
  cases hp : pySpace c
  · rfl
  · have h2 : c.isDigit = false := by
      rcases pySpace_elim hp with rfl | rfl | rfl | rfl | rfl | rfl <;> decide
    rw [h] at h2
    cases h2

theorem ciMatches_length : ∀ {kw cs : List Char},
    ciMatches kw cs = true → kw.length ≤ cs.length
  | [], _, _ => Nat.zero_le _
  | _ :: _, [], h => by cases h
  | k :: ks, c :: cs, h => by
    simp only [ciMatches, Bool.and_eq_true] at h
    exact Nat.succ_le_succ (ciMatches_length h.2)

theorem ciMatches_append : ∀ {kw cs : List Char} (t : List Char),
    ciMatches kw cs = true → ciMatches kw (cs ++ t) = true
  | [], _, _, _ => rfl
  | _ :: _, [], _, h => by cases h
  | k :: ks, c :: cs, t, h => by
    simp only [ciMatches, Bool.and_eq_true] at h
    simp only [List.cons_append, ciMatches, h.1, Bool.true_and]
    exact ciMatches_append t h.2

theorem drop_append_le {α : Type _} : ∀ {l : List α} (t : List α) {n : Nat},
    n ≤ l.length → (l ++ t).drop n = l.drop n ++ t
  | _, t, 0, _ => rfl
  | [], t, n + 1, h => absurd h (by simp)
  | x :: xs, t, n + 1, h => by
    have h' : n ≤ xs.length := by
      simpa using Nat.le_of_succ_le_succ (by simpa using h)
    simpa using drop_append_le t h'

/-- A `limit\s+\d+\b` match at the front of `cs` survives appending a tail
of non-word characters. -/
theorem limitNumAt_append {cs : List Char} (t : List Char)
    (hw : ∀ c ∈ t, isWordChar c = false) (h : limitNumAt cs = true) :
    limitNumAt (cs ++ t) = true := by
  simp only [limitNumAt, Bool.and_eq_true] at h ⊢
  obtain ⟨hci, hwne, hdne, hb⟩ := h
  have hlen : 5 ≤ cs.length := ciMatches_length hci
  have hdrop : (cs ++ t).drop 5 = cs.drop 5 ++ t := drop_append_le t hlen
  have hr2ne : (cs.drop 5).dropWhile pySpace ≠ [] := by
    intro he
    rw [he] at hdne
    simp at hdne
  have etw : ((cs.drop 5) ++ t).takeWhile pySpace
      = (cs.drop 5).takeWhile pySpace := takeWhile_append_pos t hr2ne
  have edw : ((cs.drop 5) ++ t).dropWhile pySpace
      = (cs.drop 5).dropWhile pySpace ++ t := dropWhile_append_pos t hr2ne
  by_cases hr3 : ((cs.drop 5).dropWhile pySpace).dropWhile Char.isDigit = []
  · -- the digit run reaches the end of `cs`: the tail follows the match
    have hall : ∀ c ∈ (cs.drop 5).dropWhile pySpace, Char.isDigit c = true := by
      have hsplit := List.takeWhile_append_dropWhile (p := Char.isDigit)
        (l := (cs.drop 5).dropWhile pySpace)
      rw [hr3, List.append_nil] at hsplit
      intro c hc
      rw [← hsplit] at hc
      exact mem_takeWhile_pred hc
    have htd : ∀ c ∈ t, Char.isDigit c = false :=
      fun c hc => notword_not_digit (hw c hc)
    have etw2 : (((cs.drop 5).dropWhile pySpace) ++ t).takeWhile Char.isDigit
        = (cs.drop 5).dropWhile pySpace := by
      rw [takeWhile_append_all t hall, takeWhile_head_false htd,
        List.append_nil]
    have edw2 : (((cs.drop 5).dropWhile pySpace) ++ t).dropWhile Char.isDigit
        = t := by
      rw [dropWhile_append_all t hall, dropWhile_head_false htd]
    refine ⟨ciMatches_append t hci, ?_, ?_, ?_⟩
    · rw [hdrop, etw]
      exact hwne
    · rw [hdrop, edw, etw2]
      rcases hx : (cs.drop 5).dropWhile pySpace with _ | ⟨a, l⟩
      · exact absurd hx hr2ne
      · rfl
    · rw [hdrop, edw, edw2]
      cases t with
      | nil => rfl
      | cons c t' => simp [hw c (List.mem_cons_self c t')]
  · have etw2 : (((cs.drop 5).dropWhile pySpace) ++ t).takeWhile Char.isDigit
        = ((cs.drop 5).dropWhile pySpace).takeWhile Char.isDigit :=
      takeWhile_append_pos t hr3
    have edw2 : (((cs.drop 5).dropWhile pySpace) ++ t).dropWhile Char.isDigit
        = ((cs.drop 5).dropWhile pySpace).dropWhile Char.isDigit ++ t :=
      dropWhile_append_pos t hr3
    refine ⟨ciMatches_append t hci, ?_, ?_, ?_⟩
    · rw [hdrop, etw]
      exact hwne
    · rw [hdrop, edw, etw2]
      exact hdne
    · rw [hdrop, edw, edw2]
      rcases hx : ((cs.drop 5).dropWhile pySpace).dropWhile Char.isDigit
        with _ | ⟨c, r3'⟩
      · exact absurd hx hr3
      · rw [hx] at hb
        simp only [List.cons_append]
        simpa using hb

theorem limitNumSearch_cons_left {prev : Option Char} {c : Char}
    {rest : List Char} (hb : boundaryOk prev = true)
    (hat : limitNumAt (c :: rest) = true) :
    limitNumSearch prev (c :: rest) = true := by
  show (boundaryOk prev && limitNumAt (c :: rest)
      || limitNumSearch (some c) rest) = true
  rw [hb, hat]
  rfl

theorem limitNumSearch_cons_right {prev : Option Char} {c : Char}
    {rest : List Char} (h : limitNumSearch (some c) rest = true) :
    limitNumSearch prev (c :: rest) = true := by
  show (boundaryOk prev && limitNumAt (c :: rest)
      || limitNumSearch (some c) rest) = true
  rw [h, Bool.or_true]

/-- A `\blimit\s+\d+\b` search hit survives appending a tail of non-word
characters. -/
theorem limitNumSearch_append (t : List Char)
    (hw : ∀ c ∈ t, isWordChar c = false) :
    ∀ (xs : List Char) (prev : Option Char),
      limitNumSearch prev xs = true → limitNumSearch prev (xs ++ t) = true
  | [], _, h => by cases h
  | c :: rest, prev, h => by
    simp only [limitNumSearch, Bool.or_eq_true, Bool.and_eq_true] at h
    show limitNumSearch prev (c :: (rest ++ t)) = true
    rcases h with ⟨hb, hat⟩ | h
    · have hat' : limitNumAt ((c :: rest) ++ t) = true :=
        limitNumAt_append t hw hat
      rw [List.cons_append] at hat'
      exact limitNumSearch_cons_left hb hat'
    · exact limitNumSearch_cons_right (limitNumSearch_append t hw rest (some c) h)

/-- The character "just before" a suffix reached after scanning `l`. -/
def lastOr (prev : Option Char) (l : List Char) : Option Char :=
  match l.getLast? with
  | some c => some c
  | none => prev

/-- The scanner reaches any suffix: a hit there (with the right previous
character) is a hit on the whole list. -/
theorem limitNumSearch_suffix :
    ∀ (pre : List Char) (prev : Option Char) (suffix : List Char),
      limitNumSearch (lastOr prev pre) suffix = true →
      limitNumSearch prev (pre ++ suffix) = true
  | [], prev, suffix, h => h
  | c :: pre', prev, suffix, h => by
    have hlast : lastOr prev (c :: pre') = lastOr (some c) pre' := by
      cases pre' with
      | nil => rfl
      | cons b l =>
        simp only [lastOr, List.getLast?_cons_cons]
        rcases hgl : (b :: l).getLast? with _ | x
        · exact absurd hgl (by simp)
        · rfl
    rw [hlast] at h
    show limitNumSearch prev (c :: (pre' ++ suffix)) = true
    exact limitNumSearch_cons_right (limitNumSearch_suffix pre' (some c) suffix h)

theorem digitChar_isDigit {m : Nat} (h : m < 10) :
    (Nat.digitChar m).isDigit = true := by
  interval_cases m <;> decide

theorem toDigitsCore_digits :
    ∀ (fuel n : Nat) (ds : List Char), (∀ c ∈ ds, c.isDigit = true) →
      ∀ c ∈ Nat.toDigitsCore 10 fuel n ds, c.isDigit = true
  | 0, n, ds, hds => hds
  | fuel + 1, n, ds, hds => by
    simp only [Nat.toDigitsCore]
    have hd : (Nat.digitChar (n % 10)).isDigit = true :=
      digitChar_isDigit (Nat.mod_lt _ (by decide))
    have hcons : ∀ c ∈ Nat.digitChar (n % 10) :: ds, c.isDigit = true := by
      intro c hc
      rcases List.mem_cons.mp hc with rfl | hc'
      · exact hd
      · exact hds c hc'
    by_cases h10 : n / 10 = 0
    · simpa [h10] using hcons
    · simpa [h10] using toDigitsCore_digits fuel (n / 10) _ hcons

theorem toDigitsCore_ne_nil :
    ∀ (fuel n : Nat) (ds : List Char), ds ≠ [] →
      Nat.toDigitsCore 10 fuel n ds ≠ []
  | 0, n, ds, h => h
  | fuel + 1, n, ds, h => by
    simp only [Nat.toDigitsCore]
    by_cases h10 : n / 10 = 0
    · simp [h10]
    · simpa [h10] using toDigitsCore_ne_nil fuel (n / 10) _ (by simp)

/-- The decimal rendering of a positive `Int` is a non-empty string of
digit characters. -/
theorem toString_int_pos (n : Int) (h : 0 < n) :
    (toString n).data ≠ [] ∧ ∀ c ∈ (toString n).data, c.isDigit = true := by
  match n, h with
  | Int.ofNat (m + 1), _ =>
    show Nat.toDigits 10 (m + 1) ≠ [] ∧
      ∀ c ∈ Nat.toDigits 10 (m + 1), c.isDigit = true
    refine ⟨?_, ?_⟩
    · show Nat.toDigitsCore 10 (m + 1 + 1) (m + 1) [] ≠ []
      simp only [Nat.toDigitsCore]
      by_cases h10 : (m + 1) / 10 = 0
      · simp [h10]
      · simpa [h10] using toDigitsCore_ne_nil (m + 1) ((m + 1) / 10) _ (by simp)
    · exact toDigitsCore_digits _ _ [] (by intro c hc; cases hc)

theorem dropWhile_all {α : Type _} {p : α → Bool} :
    ∀ {l : List α}, (∀ a ∈ l, p a = true) → l.dropWhile p = []
  | [], _ => rfl
  | x :: xs, h => by
    rw [List.dropWhile_cons_of_pos (h x (List.mem_cons_self x xs))]
    exact dropWhile_all fun a ha => h a (List.mem_cons_of_mem x ha)

theorem ciMatches_limit_front (rest : List Char) :
    ciMatches "limit".data ('L' :: 'I' :: 'M' :: 'I' :: 'T' :: rest) = true := by
  show ciMatches ['l', 'i', 'm', 'i', 't']
    ('L' :: 'I' :: 'M' :: 'I' :: 'T' :: rest) = true
  simp only [ciMatches]
  decide

/-- `limit\s+\d+\b` matches at the front of `LIMIT <digits>`. -/
theorem limitNumAt_limit_suffix (d : Char) (ds' : List Char)
    (hd : d.isDigit = true) (hds' : ∀ c ∈ ds', c.isDigit = true) :
    limitNumAt ('L' :: 'I' :: 'M' :: 'I' :: 'T' :: ' ' :: d :: ds') = true := by
  have e1 : ('L' :: 'I' :: 'M' :: 'I' :: 'T' :: ' ' :: d :: ds').drop 5
      = ' ' :: d :: ds' := rfl
  have hsp : pySpace ' ' = true := by decide
  have hdsp : pySpace d = false := digit_not_space hd
  have e2 : (' ' :: d :: ds').takeWhile pySpace = [' '] := by
    rw [List.takeWhile_cons_of_pos hsp,
      List.takeWhile_cons_of_neg (by simp [hdsp])]
  have e3 : (' ' :: d :: ds').dropWhile pySpace = d :: ds' := by
    rw [List.dropWhile_cons_of_pos hsp]
    exact List.dropWhile_cons_of_neg (by simp [hdsp])
  have e4 : (d :: ds').takeWhile Char.isDigit = d :: ds'.takeWhile Char.isDigit :=
    List.takeWhile_cons_of_pos hd
  have e5 : (d :: ds').dropWhile Char.isDigit = [] := by
    refine dropWhile_all ?_
    intro a ha
    rcases List.mem_cons.mp ha with rfl | ha'
    · exact hd
    · exact hds' a ha'
  simp only [limitNumAt, e1, e2, e3, e4, e5, Bool.and_eq_true]
  refine ⟨ciMatches_limit_front _, ?_, ?_, ?_⟩ <;> simp

/-- The text appended by the rewriter always carries a `LIMIT n` match. -/
theorem hasLimitNum_append_limit (base : String) (n : Int) (h : 0 < n) :
    hasLimitNum (base ++ " LIMIT " ++ toString n) = true := by
  obtain ⟨hne, hdig⟩ := toString_int_pos n h
  have hdata : (base ++ " LIMIT " ++ toString n).data
      = (base.data ++ [' ']) ++
        ('L' :: 'I' :: 'M' :: 'I' :: 'T' :: ' ' :: (toString n).data) := by
    show base.data ++ " LIMIT ".data ++ (toString n).data = _
    simp
  rw [hasLimitNum, hdata]
  apply limitNumSearch_suffix
  have hlast : lastOr none (base.data ++ [' ']) = some ' ' := by
    simp [lastOr, List.getLast?_concat]
  rw [hlast]
  rcases hds : (toString n).data with _ | ⟨d, ds'⟩
  · exact absurd hds hne
  · have hd : d.isDigit = true :=
      hdig d (by rw [hds]; exact List.mem_cons_self d ds')
    have hds' : ∀ c ∈ ds', c.isDigit = true :=
      fun c hc => hdig c (by rw [hds]; exact List.mem_cons_of_mem d hc)
    have hat := limitNumAt_limit_suffix d ds' hd hds'
    exact limitNumSearch_cons_left (by decide) hat

/-- Stripping trailing whitespace and semicolons cannot create a
`LIMIT n` match: the stripped characters are non-word, so any match in the
stripped text is already a match in the original. -/
theorem hasLimitNum_strip (sql : String) (h : hasLimitNum sql = false) :
    hasLimitNum (pyRstripSemi (pyRstrip sql)) = false := by
  cases hs : hasLimitNum (pyRstripSemi (pyRstrip sql)) with
  | false => rfl
  | true =>
    exfalso
    obtain ⟨hdec1, hmem1⟩ := rstrip_decomp sql.data pySpace
    obtain ⟨hdec2, hmem2⟩ := rstrip_decomp (pyRstripL sql.data) (· == ';')
    have hstr : (pyRstripSemi (pyRstrip sql)).data
        = ((pyRstripL sql.data).reverse.dropWhile (· == ';')).reverse := rfl
    rw [hasLimitNum, hstr] at hs
    have hw2 : ∀ c ∈ ((pyRstripL sql.data).reverse.takeWhile (· == ';')).reverse,
        isWordChar c = false := fun c hc => semi_not_word (hmem2 c hc)
    have hs2 : limitNumSearch none (pyRstripL sql.data) = true := by
      rw [hdec2]
      exact limitNumSearch_append _ hw2 _ none hs
    have hw1 : ∀ c ∈ (sql.data.reverse.takeWhile pySpace).reverse,
        isWordChar c = false := fun c hc => pySpace_not_word (hmem1 c hc)
    have hs1 : limitNumSearch none sql.data = true := by
      rw [hdec1]
      exact limitNumSearch_append _ hw1 _ none hs2
    rw [hasLimitNum, hs1] at h
    cases h

/-- C6 (confirmed).  The LIMIT-injection rewrite of `exec_sql` is
idempotent: a query that already carries a `LIMIT n` clause (in the sense
of the code's word-boundary scan) is left untouched; a query without one
gets exactly one ` LIMIT <default>` appended (after trailing whitespace
and semicolons are stripped; the stripped body still carries no `LIMIT n`
clause, so the injected clause is the only one); and applying the
rewrite twice — with any configured limit — equals applying it once. -/
theorem c6_rewriter_idempotent (limit : Option Int) (n : Int) (sql : String) :
    (hasLimitNum sql = true → exec_sql_rewrite (some n) sql = sql)
    ∧ (0 < n → hasLimitNum sql = false →
        exec_sql_rewrite (some n) sql
            = pyRstripSemi (pyRstrip sql) ++ " LIMIT " ++ toString n
          ∧ hasLimitNum (pyRstripSemi (pyRstrip sql)) = false)
    ∧ exec_sql_rewrite limit (exec_sql_rewrite limit sql)
        = exec_sql_rewrite limit sql := by
  refine ⟨?_, ?_, ?_⟩
  · intro h
    simp [exec_sql_rewrite, h]
  · intro hn h
    exact ⟨by simp [exec_sql_rewrite, hn, h], hasLimitNum_strip sql h⟩
  · cases limit with
    | none => rfl
    | some m =>
      by_cases hc : 0 < m ∧ hasLimitNum sql = false
      · have hin : exec_sql_rewrite (some m) sql
            = pyRstripSemi (pyRstrip sql) ++ " LIMIT " ++ toString m := by
          simp [exec_sql_rewrite, hc.1, hc.2]
        rw [hin]
        have hhas := hasLimitNum_append_limit (pyRstripSemi (pyRstrip sql)) m hc.1
        simp [exec_sql_rewrite, hhas]
      · have hin : exec_sql_rewrite (some m) sql = sql := by
          simp only [exec_sql_rewrite]
          rw [if_neg hc]
        rw [hin, hin]

/-- C6 (witness): `c6_rewriter_idempotent` at concrete inputs — an
already-limited query is untouched, an unlimited one gains exactly one
`LIMIT 50`, and rewriting twice is rewriting once. -/
theorem c6_rewriter_idempotent_witness :
    exec_sql_rewrite (some 50) "select id from t limit 10"
        = "select id from t limit 10"
    ∧ exec_sql_rewrite (some 50) "select id from t"
        = "select id from t LIMIT 50"
    ∧ exec_sql_rewrite (some 50) (exec_sql_rewrite (some 50) "select id from t")
        = exec_sql_rewrite (some 50) "select id from t" := by
  refine ⟨(c6_rewriter_idempotent (some 50) 50 "select id from t limit 10").1
      (by decide), ?_,
    (c6_rewriter_idempotent (some 50) 50 "select id from t").2.2⟩
  have h := (c6_rewriter_idempotent (some 50) 50 "select id from t").2.1
    (by decide) (by decide)
  rw [h.1]
  decide

/-! ## C7 — column allow-list -/

/-- C7 (confirmed).  For every candidate that reaches the column check and
whose projection list — each entry stripped (`strip()`), de-aliased
(`split(" as ")[0]`) and de-qualified (`split(".")[-1]`) — contains a
non-empty entry outside the table's allowed column set, `validate_sql`
rejects with `DISALLOWED_COLUMN` naming the first such column. -/
theorem c7_disallowed_column_named (ds : Catalog) (sql : String) (c : String)
    (h1 : pyStartsWith (vPre sql) "select" = true)
    (h2 : denySearch (vPre sql) = false)
    (h3 : hasLimitSubstr (vPre sql) = true)
    (h4 : ∃ t allowed, fromTable (vPre sql) = some t
        ∧ ds.lookup t = some allowed
        ∧ ∃ raw, headCols (vPre sql) = some raw
            ∧ pyContainsChar raw '*' = false
            ∧ (projCols raw).find? (fun x => x != "" && !(allowed.contains x))
                = some c) :
    validate_sql ds sql = .error (.DISALLOWED_COLUMN c) := by
  rcases h4 with ⟨t, allowed, ht, hl, raw, hraw, hstar, hfind⟩
  have hfind2 : (projCols raw).find? (fun x => x != "" && !decide (x ∈ allowed))
      = some c := by simpa using hfind
  unfold validate_sql
  simp [h1, h2, h3, ht, hl, hraw, hstar, hfind2]

/-- C7 (witness): `c7_disallowed_column_named` at a concrete input
projecting the unknown column `hacked`. -/
theorem c7_disallowed_column_named_witness :
    validate_sql CAT_spec
      "select id, hacked from odoo_replica.stg_res_partner limit 5"
      = .error (.DISALLOWED_COLUMN "hacked") :=
  c7_disallowed_column_named CAT_spec _ "hacked" (by decide) (by decide)
    (by decide)
    ⟨"odoo_replica.stg_res_partner",
     ["id", "display_name", "vat", "email", "company_id"], by decide, by decide,
     "id, hacked", by decide, by decide, by decide⟩

/-! ## C8 — audit exactly once, best effort -/

theorem write_audit_ok (ins : AuditRec → Except String Unit) (arec : AuditRec) :
    write_audit ins arec = .ok () := by
  unfold write_audit
  cases ins arec <;> rfl

/-- C8 (confirmed).  Whatever the external oracles do, `v1_query` invokes
the audit write exactly once (the `finally` block), every invocation
returns normally even when the underlying insert throws, and the response
handed to the caller is unchanged when the audit sink is replaced by one
that throws on every call: audit failure never fails the request. -/
theorem c8_audit_exactly_once_best_effort
    (c : Except String Unit) (hint : Except String String)
    (llm : List (String × String) → Except String String)
    (sp : Except String Unit) (run : String → Except String (List Row))
    (ins ins2 : AuditRec → Except String Unit) (req : QueryIn) :
    (v1_query ⟨c, hint, llm, sp, run, ins⟩ req).2.length = 1
    ∧ (∀ arec out, (arec, out) ∈ (v1_query ⟨c, hint, llm, sp, run, ins⟩ req).2 →
        out = .ok ())
    ∧ (v1_query ⟨c, hint, llm, sp, run, ins⟩ req).1
        = (v1_query ⟨c, hint, llm, sp, run, ins2⟩ req).1 := by
  refine ⟨rfl, ?_, rfl⟩
  intro arec out hmem
  simp only [v1_query, List.mem_singleton, Prod.mk.injEq] at hmem
  rw [hmem.2]
  exact write_audit_ok ins _

/-! ## C9 — statement timeout and scoped connection -/

/-- C9 (confirmed).  In every run of the Guarded Executor: the statements
sent to the session are either none, just the `SET statement_timeout`
command, or that command followed by the query — the timeout is installed
before the query in every case; and once a connection is acquired
(`connect` appears in the trace) the trace ends with `close`, on success
and on every exception path alike. -/
theorem c9_timeout_before_query_and_close (env : DbEnv) (sql : String)
    (t : Int) :
    (queriesOf (execute_sql env sql t).2 = []
      ∨ queriesOf (execute_sql env sql t).2 = [timeoutStmt t]
      ∨ queriesOf (execute_sql env sql t).2 = [timeoutStmt t, sql])
    ∧ (DbEvent.connect ∈ (execute_sql env sql t).2 →
        (execute_sql env sql t).2.getLast? = some DbEvent.close) := by
  unfold execute_sql
  rcases env.connect with e | u
  · exact ⟨Or.inl rfl, by intro h; cases h⟩
  · rcases env.exec (timeoutStmt t) with e | u2
    · exact ⟨Or.inr (Or.inl rfl), fun _ => rfl⟩
    · rcases env.exec sql with e | u3
      · exact ⟨Or.inr (Or.inr rfl), fun _ => rfl⟩
      · rcases env.fetch with e | ⟨rows, cols⟩
        · exact ⟨Or.inr (Or.inr rfl), fun _ => rfl⟩
        · exact ⟨Or.inr (Or.inr rfl), fun _ => rfl⟩

/-- C9 (witness): `c9_timeout_before_query_and_close` on a run whose
oracles all succeed — the session receives the `SET statement_timeout`
command and then the query, and the trace ends with `close`. -/
theorem c9_timeout_before_query_and_close_witness :
    queriesOf (execute_sql
        ⟨Except.ok (), fun _ => Except.ok (), Except.ok ([], [])⟩
        "select 1" 5000).2
      = [timeoutStmt 5000, "select 1"]
    ∧ (execute_sql ⟨Except.ok (), fun _ => Except.ok (), Except.ok ([], [])⟩
        "select 1" 5000).2.getLast? = some DbEvent.close := by
  have h := c9_timeout_before_query_and_close
    ⟨Except.ok (), fun _ => Except.ok (), Except.ok ([], [])⟩ "select 1" 5000
  refine ⟨?_, h.2 (by decide)⟩
  rcases h.1 with h1 | h1 | h1
  · exact absurd h1 (by decide)
  · exact absurd h1 (by decide)
  · exact h1

/-! ## C10 — `allow_write=true` bypasses the policy -/

/-- C10 (confirmed).  On `/api/exec`, a request with `allow_write = true`
reaches the database for *every* SQL text — no SELECT-only or
dangerous-keyword check runs — and the executed text is exactly the
supplied string stripped of surrounding whitespace and trailing
semicolons, with the LIMIT clause possibly appended by the rewriter.
With `allow_write = false`, a text failing `_is_select_only` is rejected
with the 400 policy error and nothing reaches the database. -/
theorem c10_allow_write_bypasses_policy (env : ExecEnv) (sql : String)
    (limit : Option Int) (hdb : env.databaseUrl.isSome = true) :
    (run_sql env ⟨sql, limit, true⟩).2
        = [exec_sql_rewrite limit (pyRstripSemi (pyStrip sql))]
    ∧ (_is_select_only (pyRstripSemi (pyStrip sql)) = false →
        (run_sql env ⟨sql, limit, false⟩).1
            = .error ⟨400,
              "Solo SELECT permitido. (Set allow_write=true para DML bajo tu riesgo)."⟩
          ∧ (run_sql env ⟨sql, limit, false⟩).2 = []) := by
  rcases hdbe : env.databaseUrl with _ | u
  · rw [hdbe] at hdb
    cases hdb
  · constructor
    · rcases hf : env.fetch (exec_sql_rewrite limit (pyRstripSemi (pyStrip sql)))
        with e | rows <;>
        simp [run_sql, exec_sql, hdbe, hf]
    · intro hsel
      unfold run_sql
      simp [hsel]

/-- C10 (witness): `c10_allow_write_bypasses_policy` on a concrete
environment — with `allow_write = true` the text `DROP TABLE x;` is sent
to the database (as `DROP TABLE x LIMIT 100`); with `allow_write = false`
it is rejected with the 400 policy error. -/
theorem c10_allow_write_bypasses_policy_witness :
    (run_sql ⟨some "postgres://db", fun _ => Except.ok []⟩
        ⟨"DROP TABLE x;", some 100, true⟩).2 = ["DROP TABLE x LIMIT 100"]
    ∧ (run_sql ⟨some "postgres://db", fun _ => Except.ok []⟩
        ⟨"DROP TABLE x;", some 100, false⟩).1
      = .error ⟨400,
        "Solo SELECT permitido. (Set allow_write=true para DML bajo tu riesgo)."⟩ := by
  have h := c10_allow_write_bypasses_policy
    ⟨some "postgres://db", fun _ => Except.ok []⟩ "DROP TABLE x;" (some 100)
    (by decide)
  refine ⟨?_, (h.2 (by decide)).1⟩
  rw [h.1]
  decide

end N2SQL
